import Mathlib

set_option maxHeartbeats 1000000

/-!
Verification of the MCP-hub backend (lifecycle supervisor, installer,
registry cache) against its natural-language specification.

The Rust source keeps three process-wide mutex-guarded maps
(`PROCESSES`, `INSTALLS`/`INSTALL_METADATA`/`INSTALL_PROCESSES`, `CACHE`).
We embed them as association lists threaded explicitly through each
operation.  OS facilities (process spawn/poll/kill, the filesystem,
external command outcomes, clocks) are oracles passed as parameters,
so every operation is a pure, executable Lean function mirroring the
corresponding Rust function line by line.
-/

/-- Association-list lookup (model of `HashMap::get`): first binding wins. -/
def alookup {α : Type} : List (String × α) → String → Option α
  | [], _ => none
  | kv :: rest, k => if kv.1 = k then some kv.2 else alookup rest k

/-- Remove every binding of a key (model of `HashMap::remove`; keys are unique
in the source maps, so removing all occurrences is observationally the same). -/
def aerase {α : Type} : List (String × α) → String → List (String × α)
  | [], _ => []
  | kv :: rest, k => if kv.1 = k then aerase rest k else kv :: aerase rest k

/-- Model of `HashMap::insert`: the new binding shadows/replaces any old one. -/
def ainsert {α : Type} (m : List (String × α)) (k : String) (v : α) :
    List (String × α) :=
  (k, v) :: aerase m k

/-! ## Lifecycle supervisor (`mcp_lifecycle.rs`) -/

/-- `LifecycleState` from the source. -/
inductive LifecycleState
  | stopped
  | starting
  | running
  | stopping
  | restarting
  | error
  deriving DecidableEq, Repr

/-- `MCPServerProcess` from the source.  `cpu_usage` is an `f32` option in
Rust; no modelled operation ever writes anything but `None` into it, so we
embed it as `Option Unit`. -/
structure MCPServerProcess where
  server_id : String
  pid : Option Nat
  state : LifecycleState
  started_at : Option String
  stopped_at : Option String
  restart_count : Nat
  last_error : Option String
  memory_usage : Option Nat
  cpu_usage : Option Unit
  uptime : Option Nat
  output : Option String
  deriving DecidableEq, Repr

/-- `StdioConfig` from the source. -/
structure StdioConfig where
  command : String
  args : List String
  env : List (String × String)
  cwd : Option String
  deriving DecidableEq, Repr

/-- Result of `Child::try_wait` at the moment of a call: the process is still
running, has exited (with `status.code()`, `none` when killed by a signal), or
the poll itself failed. -/
inductive PollResult
  | running
  | exited (code : Option Int)
  | pollErr (msg : String)
  deriving DecidableEq, Repr

/-- `ProcEntry` from the source: `child` is abstracted to an OS process
handle identity `procId`; `started : SystemTime` becomes a `Nat` clock value. -/
structure ProcEntry where
  procId : Nat
  state : MCPServerProcess
  started : Nat
  deriving DecidableEq, Repr

/-- The `PROCESSES` map. -/
def ProcMap : Type := List (String × ProcEntry)

/-- `mcp_get_status`: poll the entry's process and reclassify.
`poll` is the `try_wait` oracle (indexed by process handle), `now` the
`now_iso()` timestamp, `clock` the current monotonic time used by
`update_uptime`.  Returns the command result together with the updated map
(the Rust function mutates the entry in place). -/
def mcp_get_status (poll : Nat → PollResult) (now : String) (clock : Nat)
    (map : ProcMap) (server_id : String) :
    (Except String MCPServerProcess) × ProcMap :=
  match alookup map server_id with
  | none => (Except.error ("No process for " ++ server_id), map)
  | some e =>
    match poll e.procId with
    | PollResult.pollErr msg =>
        (Except.error ("Failed to poll process: " ++ msg), map)
    | PollResult.exited (some code) =>
        let st := { e.state with
          state := if code = 0 then LifecycleState.stopped else LifecycleState.error
          stopped_at := some now
          last_error :=
            if code = 0 then none
            else some ("Exited with code " ++ toString code) }
        (Except.ok st, ainsert map server_id { e with state := st })
    | PollResult.exited none =>
        -- `status.code()` returned `None`: the source updates nothing.
        (Except.ok e.state, map)
    | PollResult.running =>
        let st := { e.state with
          state := LifecycleState.running
          uptime := some (clock - e.started) }
        (Except.ok st, ainsert map server_id { e with state := st })

/-- The freshly-spawned record built by `mcp_start_server` on a successful
spawn (`restart_count` is the literal `0` from the source). -/
def mkProcess (server_id : String) (pid : Nat) (started_at : String) :
    MCPServerProcess :=
  { server_id := server_id
    pid := some pid
    state := LifecycleState.running
    started_at := some started_at
    stopped_at := none
    restart_count := 0
    last_error := none
    memory_usage := none
    cpu_usage := none
    uptime := some 0
    output := none }

/-- `mcp_start_server`: if `mcp_get_status` reports Running, return that
snapshot (no spawn); otherwise spawn (`spawn` is the `Command::spawn` oracle:
either an OS error string or a fresh handle plus pid) and insert the new
Running record. -/
def mcp_start_server (poll : Nat → PollResult) (now : String) (clock : Nat)
    (spawn : Except String (Nat × Nat)) (map : ProcMap) (server_id : String)
    (_cfg : StdioConfig) : (Except String MCPServerProcess) × ProcMap :=
  let statusRes := mcp_get_status poll now clock map server_id
  let spawnCont := fun (m : ProcMap) =>
    match spawn with
    | Except.error e => (Except.error ("Failed to start process: " ++ e), m)
    | Except.ok (handle, pidVal) =>
        let process := mkProcess server_id pidVal now
        (Except.ok process,
          ainsert m server_id
            { procId := handle, state := process, started := clock })
  match statusRes with
  | (Except.ok st, m) =>
      if st.state = LifecycleState.running then (Except.ok st, m)
      else spawnCont m
  | (Except.error _, m) => spawnCont m

/-- `mcp_stop_server`: remove the entry; with `force`, `kill` may fail (the
`killRes` oracle), otherwise the graceful path ignores signal/wait errors. -/
def mcp_stop_server (killRes : Nat → Except String Unit) (map : ProcMap)
    (server_id : String) (force : Option Bool) :
    (Except String Unit) × ProcMap :=
  match alookup map server_id with
  | none => (Except.error ("No running process for " ++ server_id), map)
  | some e =>
    let m2 := aerase map server_id
    if force.getD false then
      match killRes e.procId with
      | Except.error err =>
          (Except.error ("Failed to kill process: " ++ err), m2)
      | Except.ok _ => (Except.ok (), m2)
    else (Except.ok (), m2)

/-- `mcp_restart_server`: stop first (errors ignored), sleep (no observable
effect in the model), then start only if a config was supplied. -/
def mcp_restart_server (killRes : Nat → Except String Unit)
    (poll : Nat → PollResult) (now : String) (clock : Nat)
    (spawn : Except String (Nat × Nat)) (map : ProcMap) (server_id : String)
    (cfg : Option StdioConfig) : (Except String MCPServerProcess) × ProcMap :=
  let stopped := mcp_stop_server killRes map server_id (some false)
  match cfg with
  | some c => mcp_start_server poll now clock spawn stopped.2 server_id c
  | none => (Except.error "Missing configuration for restart", stopped.2)

/-! ## Registry cache and search (`mcp_registry.rs`) -/

/-- `InstallationSource` from the source. -/
inductive InstallationSource
  | npm
  | github
  | local
  deriving DecidableEq, Repr

/-- `RegistryServerEntry` from the source. -/
structure RegistryServerEntry where
  id : String
  name : String
  description : String
  source : InstallationSource
  package_name : Option String
  repository : Option String
  version : Option String
  author : Option String
  homepage : Option String
  documentation : Option String
  tags : Option (List String)
  downloads : Option Nat
  stars : Option Nat
  last_updated : Option String
  verified : Option Bool
  deriving DecidableEq, Repr

/-- `RegistrySearchFilters` from the source (`u32` bounds become `Nat`). -/
structure RegistrySearchFilters where
  query : Option String
  source : Option String
  tags : Option (List String)
  verified : Option Bool
  sort_by : Option String
  limit : Option Nat
  offset : Option Nat
  deriving DecidableEq, Repr

/-- Boolean prefix test on character lists. -/
def isPrefixList : List Char → List Char → Bool
  | [], _ => true
  | _ :: _, [] => false
  | a :: as, b :: bs => a = b && isPrefixList as bs

/-- Substring containment on character lists (model of Rust
`str::contains`). -/
def subAux (needle : List Char) : List Char → Bool
  | [] => needle.isEmpty
  | c :: t => isPrefixList needle (c :: t) || subAux needle t

/-- `hay.contains(needle)` for strings. -/
def containsSub (hay needle : String) : Bool :=
  subAux needle.toList hay.toList

/-- Split a character list at `'/'` (model of Rust `str::split('/')`). -/
def splitSlashAux (acc : List Char) : List Char → List (List Char)
  | [] => [acc.reverse]
  | c :: rest =>
      if c = '/' then acc.reverse :: splitSlashAux [] rest
      else splitSlashAux (c :: acc) rest

/-- Lexicographic character-list comparison, the observable behaviour of
Rust's `str` ordering over the characters of the claims' inputs. -/
def leChars : List Char → List Char → Bool
  | [], _ => true
  | _ :: _, [] => false
  | a :: as, b :: bs =>
      if a = b then leChars as bs else decide (a < b)

/-- `a <= b` for strings, via `leChars`. -/
def leStr (a b : String) : Bool := leChars a.toList b.toList

/-- Lowercase a string character-wise (model of Rust `str::to_lowercase`
over the ASCII data appearing in the registry). -/
def lowerStr (s : String) : String := String.mk (s.toList.map Char.toLower)

/-- Stable insertion into a sorted list: a new element goes after all
existing elements `b` with `le b x`. -/
def insSorted {α : Type} (le : α → α → Bool) (x : α) : List α → List α
  | [] => [x]
  | b :: l => if le b x then b :: insSorted le x l else x :: b :: l

/-- Stable sort by a boolean total preorder — the observable behaviour of
Rust's stable `sort_by`/`sort_by_key` (sorted output, ties keep their
original relative order, which determines the output uniquely). -/
def stableSort {α : Type} (le : α → α → Bool) (l : List α) : List α :=
  l.foldl (fun acc x => insSorted le x acc) []

/-- The curated package list from `known_servers()`. -/
def knownPkgs : List String :=
  ["@modelcontextprotocol/server-filesystem",
   "@modelcontextprotocol/server-github",
   "@modelcontextprotocol/server-postgres",
   "@modelcontextprotocol/server-sqlite",
   "@modelcontextprotocol/server-slack",
   "@modelcontextprotocol/server-brave-search",
   "@modelcontextprotocol/server-puppeteer",
   "@modelcontextprotocol/server-memory",
   "@modelcontextprotocol/server-fetch",
   "@modelcontextprotocol/server-google-maps"]

/-- Repeatedly strip a leading pattern (model of Rust
`str::trim_start_matches`); fuelled by the subject's length. -/
def trimStartAux (p : List Char) : Nat → List Char → List Char
  | 0, s => s
  | fuel + 1, s =>
      if isPrefixList p s && !p.isEmpty then trimStartAux p fuel (s.drop p.length)
      else s

/-- `s.trim_start_matches(p)`. -/
def trim_start_matches (s p : String) : String :=
  String.mk (trimStartAux p.toList (s.toList.length + 1) s.toList)

/-- `name[0..1].to_uppercase() + &name[1..]` for the (nonempty, ASCII)
curated names. -/
def capitalizeFirst (s : String) : String :=
  match s.toList with
  | [] => ""
  | c :: rest => String.mk (c.toUpper :: rest)

/-- `known_servers()` from the source. -/
def known_servers : List RegistryServerEntry :=
  knownPkgs.map (fun pkg =>
    let name := trim_start_matches pkg "@modelcontextprotocol/server-"
    { id := pkg
      name := capitalizeFirst name
      description := "Official MCP " ++ name ++ " server"
      source := InstallationSource.npm
      package_name := some pkg
      repository := none
      version := none
      author := none
      homepage := some "https://github.com/modelcontextprotocol/servers"
      documentation :=
        some ("https://github.com/modelcontextprotocol/servers/tree/main/src/" ++ name)
      tags := some ["official", "mcp", name]
      downloads := none
      stars := none
      last_updated := none
      verified := some true })

/-- First-occurrence-wins deduplication by `id`
(`list.retain(|e| seen.insert(e.id.clone()))` with a `HashSet`). -/
def dedupGo (seen : List String) : List RegistryServerEntry → List RegistryServerEntry
  | [] => []
  | e :: rest =>
      if e.id ∈ seen then dedupGo seen rest
      else e :: dedupGo (e.id :: seen) rest

/-- Deduplicate a whole list by `id`. -/
def dedupById (l : List RegistryServerEntry) : List RegistryServerEntry :=
  dedupGo [] l

/-- `update_cache`: curated entries, then the live npm search results, then
the live github search results (both oracles here — they come from external
commands), deduplicated by `id`.  Returns the new cache contents. -/
def update_cache (npm github : List RegistryServerEntry) :
    List RegistryServerEntry :=
  dedupById (known_servers ++ npm ++ github)

/-- First entry with a given `id`. -/
def findById (l : List RegistryServerEntry) (i : String) :
    Option RegistryServerEntry :=
  l.find? (fun e => e.id = i)

/-- The query filter predicate of `registry_search` (the query is already
lowercased by the caller). -/
def entryMatchesQuery (q : String) (s : RegistryServerEntry) : Bool :=
  containsSub (lowerStr s.name) q || containsSub (lowerStr s.description) q ||
    (match s.tags with
     | some ts => ts.any (fun t => containsSub (lowerStr t) q)
     | none => false)

/-- The source filter predicate of `registry_search`. -/
def sourceMatches (src : String) (s : RegistryServerEntry) : Bool :=
  match s.source with
  | InstallationSource.npm => src = "npm"
  | InstallationSource.github => src = "github"
  | InstallationSource.local => src = "local"

/-- The filter → sort pipeline of `registry_search` (everything before the
slicing). -/
def filterSort (cache : List RegistryServerEntry)
    (filters : RegistrySearchFilters) : List RegistryServerEntry :=
  let r1 := match filters.query with
    | some q => cache.filter (entryMatchesQuery (lowerStr q))
    | none => cache
  let r2 := match filters.source with
    | some src => r1.filter (sourceMatches src)
    | none => r1
  let r3 := match filters.verified with
    | some v => r2.filter (fun s => s.verified.getD false = v)
    | none => r2
  match filters.sort_by with
  | some sort =>
      if sort = "downloads" then
        stableSort (fun a b => decide (b.downloads.getD 0 ≤ a.downloads.getD 0)) r3
      else if sort = "stars" then
        stableSort (fun a b => decide (b.stars.getD 0 ≤ a.stars.getD 0)) r3
      else if sort = "updated" then
        stableSort (fun a b => leStr (b.last_updated.getD "") (a.last_updated.getD "")) r3
      else stableSort (fun a b => leStr a.name b.name) r3
  | none => stableSort (fun a b => leStr a.name b.name) r3

/-- `registry_search` over a fixed cache (the lazy `update_cache` on an
empty cache is outside this model: the claimed properties are about a
stable, already-populated cache).  Returns `(page, total, has_more)`. -/
def registry_search (cache : List RegistryServerEntry)
    (filters : RegistrySearchFilters) :
    List RegistryServerEntry × Nat × Bool :=
  let results := filterSort cache filters
  let total := results.length
  let offset := filters.offset.getD 0
  let limit := filters.limit.getD 20
  let slice :=
    if offset < results.length then (results.drop offset).take limit else []
  let has_more := decide (offset + limit < total)
  (slice, total, has_more)

/-- Replace the offset of a filter set. -/
def setOffset (f : RegistrySearchFilters) (off : Nat) : RegistrySearchFilters :=
  { f with offset := some off }

/-- Concatenation of `n` consecutive `registry_search` pages starting at
page index `k` (page `k` queries offset `k * l`). -/
def searchPages (cache : List RegistryServerEntry)
    (f : RegistrySearchFilters) (l : Nat) : Nat → Nat → List RegistryServerEntry
  | _, 0 => []
  | k, n + 1 =>
      (registry_search cache (setOffset f (k * l))).1 ++
        searchPages cache f l (k + 1) n

/-! ## Installer (`mcp_installer.rs`) -/

/-- `InstallConfig` from the source. -/
inductive InstallConfig
  | npm (package_name : String) (version : Option String)
      (global : Option Bool) (registry : Option String)
  | github (repository : String) (branch : Option String) (tag : Option String)
      (commit : Option String) (sub_path : Option String)
  | local (path : String) (validate : Option Bool)
  deriving DecidableEq, Repr

/-- `DependencyInfo` from the source. -/
structure DependencyInfo where
  name : String
  required : Bool
  installed : Bool
  install_path : Option String
  deriving DecidableEq, Repr

/-- `InstallationStatus` from the source. -/
inductive InstallationStatus
  | pending
  | downloading
  | installing
  | configuring
  | completed
  | failed
  | cancelled
  deriving DecidableEq, Repr

/-- `InstallationProgress` from the source. -/
structure InstallationProgress where
  install_id : String
  status : InstallationStatus
  progress : Nat
  message : String
  current_step : Option String
  total_steps : Option Nat
  current_step_number : Option Nat
  started_at : String
  completed_at : Option String
  error : Option String
  logs : Option (List String)
  deriving DecidableEq, Repr

/-- `InstallationValidation` from the source. -/
structure InstallationValidation where
  valid : Bool
  errors : List String
  warnings : List String
  dependencies : List DependencyInfo
  estimated_size : Option Nat
  estimated_time : Option Nat
  deriving DecidableEq, Repr

/-- `InstallMetadata` from the source. -/
structure InstallMetadata where
  server_id : String
  install_id : String
  source_type : String
  install_path : String
  package_name : Option String
  repository : Option String
  version : Option String
  installed_at : String
  client_type : Option String
  original_config : Option String
  config_source_path : Option String
  deriving DecidableEq, Repr

/-- The installer's shared state: the three static maps (`INSTALLS`,
`INSTALL_METADATA`, `INSTALL_PROCESSES`, the latter abstracting `Child`
handles to `Nat`) plus an abstract filesystem: the set of directories that
currently exist.  `remove_dir_all`/`create_dir_all` succeed in this model;
OS-level I/O failures are outside the shallow embedding. -/
structure InstallerState where
  installs : List (String × InstallationProgress)
  metadata : List (String × InstallMetadata)
  processes : List (String × Nat)
  fs : List String
  deriving DecidableEq, Repr

/-- `create_dir_all`: ensure a directory exists. -/
def addPath (fs : List String) (p : String) : List String :=
  if p ∈ fs then fs else p :: fs

/-- `remove_dir_all` on the abstract filesystem. -/
def removePath (fs : List String) (p : String) : List String :=
  fs.filter (fun q => q ≠ p)

/-- The `update` helper from the source: patch the progress record if it
exists, do nothing otherwise. -/
def update_progress (m : List (String × InstallationProgress)) (install_id : String)
    (patch : InstallationProgress → InstallationProgress) :
    List (String × InstallationProgress) :=
  m.map (fun kv => if kv.1 = install_id then (kv.1, patch kv.2) else kv)

/-- Character class `[a-z0-9-~]` of the npm package-name regex. -/
def npmC1 (c : Char) : Bool :=
  c.isLower || c.isDigit || c = '-' || c = '~'

/-- Character class `[a-z0-9-._~]` of the npm package-name regex. -/
def npmC2 (c : Char) : Bool :=
  npmC1 c || c = '.' || c = '_'

/-- One name segment of the npm regex: `[a-z0-9-~][a-z0-9-._~]*`. -/
def npmPart (l : List Char) : Bool :=
  match l with
  | [] => false
  | c :: rest => npmC1 c && rest.all npmC2

/-- The anchored npm package-name regex from `validate_install`
(optional `@scope` part, slash, name part): since `/` and `@` are excluded
from the character classes, a match is exactly "one segment" or
"`@`-scope, slash, segment". -/
def npmNameOk (s : String) : Bool :=
  match splitSlashAux [] s.toList with
  | [single] => npmPart single
  | [scope, name] =>
      (match scope with
       | '@' :: c :: rest => npmC1 c && rest.all npmC2
       | _ => false) && npmPart name
  | _ => false

/-- Character class `[A-Za-z0-9_-]` of the GitHub repo regex. -/
def ghOwnerC (c : Char) : Bool :=
  c.isAlpha || c.isDigit || c = '_' || c = '-'

/-- Character class `[A-Za-z0-9_.-]` of the GitHub repo regex. -/
def ghRepoC (c : Char) : Bool :=
  ghOwnerC c || c = '.'

/-- The anchored `owner/repo` regex from `validate_install`. -/
def githubRepoOk (s : String) : Bool :=
  match splitSlashAux [] s.toList with
  | [owner, repo] =>
      !owner.isEmpty && owner.all ghOwnerC && !repo.isEmpty && repo.all ghRepoC
  | _ => false

/-- Environment oracle for `validate_install`: results of the
`npm --version` / `git --version` availability probes and of the
`path.exists() && path.is_dir()` check. -/
structure ToolEnv where
  npmAvailable : Bool
  gitAvailable : Bool
  pathIsDir : String → Bool

/-- `validate_install`.  Besides the validation result we return the list of
external commands the function shells out to (the availability probes), and
thread the installer state through unchanged — the Rust function touches
none of the shared maps. -/
def validate_install (env : ToolEnv) (config : InstallConfig)
    (st : InstallerState) :
    InstallationValidation × List String × InstallerState :=
  let v0 : InstallationValidation :=
    { valid := true
      errors := []
      warnings := []
      dependencies := []
      estimated_size := none
      estimated_time := none }
  match config with
  | InstallConfig.npm package_name _ _ _ =>
      let v1 := if npmNameOk package_name then v0
        else { v0 with
                valid := false
                errors := ["Invalid npm package name"] }
      let v2 := if env.npmAvailable then
          { v1 with
             dependencies :=
              [{ name := "npm"
                 required := true
                 installed := true
                 install_path := none }] }
        else { v1 with
                valid := false
                errors := v1.errors ++ ["npm is not available on PATH"] }
      ({ v2 with
          estimated_size := some (10 * 1024 * 1024)
          estimated_time := some 30 },
       ["npm --version"], st)
  | InstallConfig.github repository _ _ _ _ =>
      let v1 := if githubRepoOk repository then v0
        else { v0 with
                valid := false
                errors := ["Invalid GitHub repository format (owner/repo)"] }
      let v2 := if env.gitAvailable then
          { v1 with
             dependencies :=
              [{ name := "git"
                 required := true
                 installed := true
                 install_path := none }] }
        else { v1 with
                valid := false
                errors := v1.errors ++ ["git is not available on PATH"] }
      ({ v2 with
          estimated_size := some (50 * 1024 * 1024)
          estimated_time := some 60 },
       ["git --version"], st)
  | InstallConfig.local path _ =>
      let v1 := if env.pathIsDir path then v0
        else { v0 with
                valid := false
                errors := ["Path must exist and be a directory"] }
      ({ v1 with
          estimated_size := some 0
          estimated_time := some 1 },
       [], st)

/-- `package_name.replace("/", "-")` (single-character pattern). -/
def slashToDash (s : String) : String :=
  String.mk (s.toList.map (fun c => if c = '/' then '-' else c))

/-- `repository.split('/').next_back().unwrap_or("repo")`. -/
def lastSegment (repo : String) : String :=
  match (splitSlashAux [] repo.toList).getLast? with
  | some l => String.mk l
  | none => "repo"

/-- `Option::or`. -/
def optOr {α : Type} (a b : Option α) : Option α :=
  match a with
  | some x => some x
  | none => b

/-- Environment oracle for `do_install`: the app data directory, the
outcomes of the external `npm install` / `git clone` commands, the local
path check, and the `now_iso()` timestamp. -/
structure InstallEnv where
  appDataDir : String
  npmOk : Bool
  gitOk : Bool
  pathIsDir : String → Bool
  now : String

/-- `do_install`: the background install task.  Progress updates, the
target-directory computation, metadata insertion and terminal transitions
mirror the source; external commands are decided by the `env` oracle, and
the best-effort dependency install of the github branch has no effect on the
modelled state (its result is discarded by the source). -/
def do_install (env : InstallEnv) (st : InstallerState) (install_id : String)
    (config : InstallConfig) : (Except String Unit) × InstallerState :=
  match config with
  | InstallConfig.npm package_name version global _registry =>
      let st1 := { st with installs := (update_progress st.installs install_id
        (fun p => { p with
          status := InstallationStatus.downloading
          progress := 10
          message := "Downloading " ++ package_name ++ "..."
          current_step := some "Downloading"
          total_steps := some 3
          current_step_number := some 1 })) }
      let target := if global.getD false then env.appDataDir
        else env.appDataDir ++ "/mcp_servers/npm/" ++ slashToDash package_name
      let st2 := { st1 with fs := addPath st1.fs target }
      if env.npmOk then
        let st3 := { st2 with installs := (update_progress st2.installs install_id
          (fun p => { p with
            status := InstallationStatus.configuring
            progress := 80
            message := "Configuring server..."
            current_step := some "Configuring"
            current_step_number := some 2 })) }
        let md : InstallMetadata :=
          { server_id := install_id
            install_id := install_id
            source_type := "npm"
            install_path := target
            package_name := some package_name
            repository := none
            version := version
            installed_at := env.now
            client_type := some "mcp-hub"
            original_config := none
            config_source_path := none }
        let st4 := { st3 with metadata := ainsert st3.metadata install_id md }
        let st5 := { st4 with installs := (update_progress st4.installs install_id
          (fun p => { p with
            status := InstallationStatus.completed
            progress := 100
            message := "Installation completed successfully"
            current_step := some "Completed"
            current_step_number := some 3
            completed_at := some env.now })) }
        (Except.ok (), st5)
      else
        let stF := { st2 with installs := (update_progress st2.installs install_id
          (fun p => { p with
            status := InstallationStatus.failed
            progress := 0
            message := "Installation failed"
            error := some "npm exited with non-zero status"
            completed_at := some env.now })) }
        (Except.error "npm install failed", stF)
  | InstallConfig.github repository branch tag _ _ =>
      let st1 := { st with installs := (update_progress st.installs install_id
        (fun p => { p with
          status := InstallationStatus.downloading
          progress := 10
          message := "Cloning " ++ repository ++ "..."
          current_step := some "Cloning"
          total_steps := some 4
          current_step_number := some 1 })) }
      let target :=
        env.appDataDir ++ "/mcp_servers/github/" ++ lastSegment repository
      let st2 := { st1 with fs := addPath st1.fs target }
      if env.gitOk then
        let st3 := { st2 with installs := (update_progress st2.installs install_id
          (fun p => { p with
            status := InstallationStatus.installing
            progress := 60
            message := "Installing dependencies..."
            current_step := some "Installing deps"
            current_step_number := some 3 })) }
        let md : InstallMetadata :=
          { server_id := install_id
            install_id := install_id
            source_type := "github"
            install_path := target
            package_name := none
            repository := some repository
            version := optOr tag branch
            installed_at := env.now
            client_type := some "mcp-hub"
            original_config := none
            config_source_path := none }
        let st4 := { st3 with metadata := ainsert st3.metadata install_id md }
        let st5 := { st4 with installs := (update_progress st4.installs install_id
          (fun p => { p with
            status := InstallationStatus.completed
            progress := 100
            message := "Installation completed successfully"
            current_step := some "Completed"
            current_step_number := some 4
            completed_at := some env.now })) }
        (Except.ok (), st5)
      else
        let stF := { st2 with installs := (update_progress st2.installs install_id
          (fun p => { p with
            status := InstallationStatus.failed
            progress := 0
            message := "Clone failed"
            error := some "git exited with non-zero status"
            completed_at := some env.now })) }
        (Except.error "git clone failed", stF)
  | InstallConfig.local path _ =>
      if env.pathIsDir path then
        let st1 := { st with installs := (update_progress st.installs install_id
          (fun p => { p with
            status := InstallationStatus.configuring
            progress := 50
            message := "Configuring local server..."
            current_step := some "Configuring"
            total_steps := some 2
            current_step_number := some 1 })) }
        let md : InstallMetadata :=
          { server_id := install_id
            install_id := install_id
            source_type := "local"
            install_path := path
            package_name := none
            repository := none
            version := none
            installed_at := env.now
            client_type := some "mcp-hub"
            original_config := none
            config_source_path := none }
        let st2 := { st1 with metadata := ainsert st1.metadata install_id md }
        let st3 := { st2 with installs := (update_progress st2.installs install_id
          (fun p => { p with
            status := InstallationStatus.completed
            progress := 100
            message := "Local server configured"
            current_step := some "Completed"
            current_step_number := some 2
            completed_at := some env.now })) }
        (Except.ok (), st3)
      else
        let stF := { st with installs := (update_progress st.installs install_id
          (fun p => { p with
            status := InstallationStatus.failed
            progress := 0
            message := "Invalid local path"
            error := some "Path must exist and be directory"
            completed_at := some env.now })) }
        (Except.error "invalid path", stF)

/-- `get_install_progress`. -/
def get_install_progress (st : InstallerState) (install_id : String) :
    Except String InstallationProgress :=
  match alookup st.installs install_id with
  | some p => Except.ok p
  | none => Except.error "Installation not found"

/-- `cancel_install`: patch the progress record (a no-op for unknown ids)
and unconditionally succeed. -/
def cancel_install (now : String) (st : InstallerState) (install_id : String) :
    (Except String Unit) × InstallerState :=
  (Except.ok (),
   { st with installs := (update_progress st.installs install_id
      (fun p => { p with
        status := InstallationStatus.cancelled
        message := "Installation cancelled"
        completed_at := some now })) })

/-- `cleanup_install`: drop the progress record. -/
def cleanup_install (st : InstallerState) (install_id : String) :
    (Except String Unit) × InstallerState :=
  (Except.ok (), { st with installs := aerase st.installs install_id })

/-- `uninstall_server`: look up durable metadata (error when missing),
best-effort stop the server (when requested and a `server_id` is given),
perform source-specific teardown on the abstract filesystem (the best-effort
`npm uninstall` has no effect on the modelled state), then drop the
metadata, progress and process-handle entries.  The lifecycle `PROCESSES`
map is threaded alongside because the stop call crosses subsystems. -/
def uninstall_server (killRes : Nat → Except String Unit)
    (st : InstallerState) (procs : ProcMap) (install_id : String)
    (server_id : Option String) (stop_process : Option Bool) :
    (Except String Unit) × InstallerState × ProcMap :=
  match alookup st.metadata install_id with
  | none =>
      (Except.error ("Installation metadata not found for install_id: " ++ install_id),
       st, procs)
  | some metadata =>
    let procs1 :=
      if stop_process.getD true then
        match server_id with
        | some sid => (mcp_stop_server killRes procs sid (some false)).2
        | none => procs
      else procs
    let fsStep : Except String (List String) :=
      if metadata.source_type = "npm" then
        Except.ok (removePath st.fs metadata.install_path)
      else if metadata.source_type = "github" then
        Except.ok (removePath st.fs metadata.install_path)
      else if metadata.source_type = "local" then
        Except.ok st.fs
      else
        Except.error ("Unknown installation source type: " ++ metadata.source_type)
    match fsStep with
    | Except.error e => (Except.error e, st, procs1)
    | Except.ok fs1 =>
        (Except.ok (),
         { st with
            fs := fs1
            metadata := aerase st.metadata install_id
            installs := aerase st.installs install_id
            processes := aerase st.processes install_id },
         procs1)

/-- Projection used to compare what two `start` calls returned. -/
def okStartedPid (r : Except String MCPServerProcess) :
    Option (Option String × Option Nat) :=
  match r with
  | Except.ok p => some (p.started_at, p.pid)
  | Except.error _ => none

/-- The OS process handle currently stored for a server id. -/
def procIdAt (m : ProcMap) (id : String) : Option Nat :=
  (alookup m id).map (fun e => e.procId)

/-- The snapshot `mcp_get_status` produces for a live process. -/
def runningSnap (e : ProcEntry) (clock : Nat) : MCPServerProcess :=
  { e.state with state := LifecycleState.running, uptime := some (clock - e.started) }

/-- Concrete config used by the witnesses. -/
def cfgW : StdioConfig := { command := "c", args := [], env := [], cwd := none }

/-- Poll oracle reporting every process alive. -/
def pollAliveW : Nat → PollResult := fun _ => PollResult.running

/-- A concrete first `start` call: empty registry, successful spawn. -/
def startW : (Except String MCPServerProcess) × ProcMap :=
  mcp_start_server pollAliveW "T1" 3 (Except.ok (1, 42)) [] "s" cfgW

/-- A prior record in state Stopped with `restart_count = 3`. -/
def cexPriorEntry : ProcEntry :=
  { procId := 7
    state :=
      { server_id := "s"
        pid := some 11
        state := LifecycleState.stopped
        started_at := some "T0"
        stopped_at := some "T0b"
        restart_count := 3
        last_error := none
        memory_usage := none
        cpu_usage := none
        uptime := some 0
        output := none }
    started := 0 }

/-- A registry holding that prior record. -/
def cexMap : ProcMap := [("s", cexPriorEntry)]

/-- The snapshot `mcp_get_status` produces after a clean exit (code 0). -/
def stoppedSnap (e : ProcEntry) (now : String) : MCPServerProcess :=
  { e.state with
      state := LifecycleState.stopped
      stopped_at := some now
      last_error := none }

/-- The snapshot `mcp_get_status` produces after a non-zero exit: state
Error and `last_error` the message embedding the exit code. -/
def errorSnap (e : ProcEntry) (now : String) (c : Int) : MCPServerProcess :=
  { e.state with
      state := LifecycleState.error
      stopped_at := some now
      last_error := some ("Exited with code " ++ toString c) }

/-- A live Running record used by the C8 counterexample. -/
def runEntryW : ProcEntry :=
  { procId := 5, state := mkProcess "s" 77 "T0", started := 0 }

/-- The curated entry for the github server, as `known_servers` builds it. -/
def kGithubW : RegistryServerEntry :=
  { id := "@modelcontextprotocol/server-github"
    name := "Github"
    description := "Official MCP github server"
    source := InstallationSource.npm
    package_name := some "@modelcontextprotocol/server-github"
    repository := none
    version := none
    author := none
    homepage := some "https://github.com/modelcontextprotocol/servers"
    documentation := some "https://github.com/modelcontextprotocol/servers/tree/main/src/github"
    tags := some ["official", "mcp", "github"]
    downloads := none
    stars := none
    last_updated := none
    verified := some true }

/-- A lower-quality live duplicate of the curated github entry's id. -/
def imposterW : RegistryServerEntry :=
  { kGithubW with name := "imposter", description := "shadow", verified := some false }

/-- Concatenation of consecutive `l`-sized windows of a list, starting at
window index `k`. -/
def pagesAbs (xs : List RegistryServerEntry) (l : Nat) :
    Nat → Nat → List RegistryServerEntry
  | _, 0 => []
  | k, n + 1 => ((xs.drop (k * l)).take l) ++ pagesAbs xs l (k + 1) n

/-- Two concrete cache entries for the pagination witness. -/
def entryAW : RegistryServerEntry :=
  { id := "a"
    name := "Alpha"
    description := "d"
    source := InstallationSource.npm
    package_name := none
    repository := none
    version := none
    author := none
    homepage := none
    documentation := none
    tags := some ["mcp"]
    downloads := some 5
    stars := none
    last_updated := none
    verified := some true }

/-- Second concrete entry. -/
def entryBW : RegistryServerEntry :=
  { entryAW with id := "b", name := "Beta", downloads := some 9 }

/-- Filters with page size 1 used by the pagination witness. -/
def fPagW : RegistrySearchFilters :=
  { query := none
    source := none
    tags := none
    verified := none
    sort_by := none
    limit := some 1
    offset := none }

/-- The empty installer state. -/
def stEmptyW : InstallerState :=
  { installs := [], metadata := [], processes := [], fs := [] }

/-- Install environment used by the witnesses. -/
def envLocalW : InstallEnv :=
  { appDataDir := "/data", npmOk := true, gitOk := true,
    pathIsDir := fun _ => true, now := "N" }

/-- Npm install metadata used by the C2 witness. -/
def mdNpmW : InstallMetadata :=
  { server_id := "i2"
    install_id := "i2"
    source_type := "npm"
    install_path := "/data/p"
    package_name := some "pkg"
    repository := none
    version := none
    installed_at := "N"
    client_type := some "mcp-hub"
    original_config := none
    config_source_path := none }

/-- Installer state holding that record, with its directory on disk. -/
def stNpmW : InstallerState :=
  { installs := [], metadata := [("i2", mdNpmW)], processes := [],
    fs := ["/data/p", "/other"] }

/-- Kill oracle that always succeeds. -/
def killOkW : Nat → Except String Unit := fun _ => Except.ok ()

/-- Tool environment with npm and git present. -/
def envToolsW : ToolEnv :=
  { npmAvailable := true, gitAvailable := true, pathIsDir := fun _ => false }

/-! ## Theorems -/

theorem alookup_ainsert_self {α : Type} (m : List (String × α)) (k : String)
    (v : α) : alookup (ainsert m k v) k = some v := by
  simp [ainsert, alookup]

theorem alookup_aerase_self {α : Type} (m : List (String × α)) (k : String) :
    alookup (aerase m k) k = none := by
  induction m with
  | nil => rfl
  | cons kv rest ih =>
      by_cases h : kv.1 = k
      · simpa [aerase, h] using ih
      · simpa [aerase, alookup, h] using ih

/-! ## Lemmas about the lifecycle supervisor -/

/-- A successful `mcp_get_status` leaves an entry for the id whose stored
snapshot is exactly the returned one and whose OS process handle and start
time are unchanged. -/
theorem status_ok_entry (poll : Nat → PollResult) (now : String) (clock : Nat)
    (m : ProcMap) (id : String) (st : MCPServerProcess)
    (h : (mcp_get_status poll now clock m id).1 = Except.ok st) :
    ∃ e e2, alookup m id = some e ∧
      alookup (mcp_get_status poll now clock m id).2 id = some e2 ∧
      e2.state = st ∧ e2.procId = e.procId ∧ e2.started = e.started := by
  cases he : alookup m id with
  | none => simp [mcp_get_status, he] at h
  | some e =>
    cases hp : poll e.procId with
    | pollErr msg => simp [mcp_get_status, he, hp] at h
    | running =>
        simp only [mcp_get_status, he, hp] at h ⊢
        refine ⟨e, _, rfl, alookup_ainsert_self _ _ _, ?_, rfl, rfl⟩
        simpa using h
    | exited code =>
        cases code with
        | none =>
            simp only [mcp_get_status, he] at h ⊢
            rw [hp] at h ⊢
            exact ⟨e, e, rfl, he, by simpa using h, rfl, rfl⟩
        | some c =>
            simp only [mcp_get_status, he] at h ⊢
            rw [hp] at h ⊢
            refine ⟨e, _, rfl, alookup_ainsert_self _ _ _, ?_, rfl, rfl⟩
            simpa using h

/-- A successful `mcp_start_server` leaves an entry for the id whose stored
snapshot is the returned process record. -/
theorem start_ok_entry (poll : Nat → PollResult) (now : String) (clock : Nat)
    (spawn : Except String (Nat × Nat)) (m : ProcMap) (id : String)
    (cfg : StdioConfig) (p : MCPServerProcess)
    (h : (mcp_start_server poll now clock spawn m id cfg).1 = Except.ok p) :
    ∃ e, alookup (mcp_start_server poll now clock spawn m id cfg).2 id = some e ∧
      e.state = p := by
  rcases hsr : mcp_get_status poll now clock m id with ⟨r, m2⟩
  cases r with
  | error err =>
      cases spawn with
      | error e2 =>
          have key : mcp_start_server poll now clock (Except.error e2) m id cfg =
              (Except.error ("Failed to start process: " ++ e2), m2) := by
            simp [mcp_start_server, hsr]
          rw [key] at h
          simp at h
      | ok pr =>
          rcases pr with ⟨handle, pidVal⟩
          have key : mcp_start_server poll now clock (Except.ok (handle, pidVal)) m id cfg =
              (Except.ok (mkProcess id pidVal now),
                ainsert m2 id { procId := handle, state := mkProcess id pidVal now, started := clock }) := by
            simp [mcp_start_server, hsr]
          rw [key] at h ⊢
          refine ⟨_, alookup_ainsert_self _ _ _, ?_⟩
          simpa using h
  | ok st =>
      by_cases hrun : st.state = LifecycleState.running
      · have key : mcp_start_server poll now clock spawn m id cfg =
            (Except.ok st, m2) := by
          simp [mcp_start_server, hsr, hrun]
        rw [key] at h ⊢
        obtain ⟨e, e2, _, h2, h3, _, _⟩ :=
          status_ok_entry poll now clock m id st (by rw [hsr])
        rw [hsr] at h2
        have hst : st = p := by simpa using h
        exact ⟨e2, by simpa using h2, by rw [h3, hst]⟩
      · cases spawn with
        | error e2 =>
            have key : mcp_start_server poll now clock (Except.error e2) m id cfg =
                (Except.error ("Failed to start process: " ++ e2), m2) := by
              simp [mcp_start_server, hsr, hrun]
            rw [key] at h
            simp at h
        | ok pr =>
            rcases pr with ⟨handle, pidVal⟩
            have key : mcp_start_server poll now clock (Except.ok (handle, pidVal)) m id cfg =
                (Except.ok (mkProcess id pidVal now),
                  ainsert m2 id { procId := handle, state := mkProcess id pidVal now, started := clock }) := by
              simp [mcp_start_server, hsr, hrun]
            rw [key] at h ⊢
            refine ⟨_, alookup_ainsert_self _ _ _, ?_⟩
            simpa using h

/-- If the stored entry's process polls as alive, `mcp_start_server` takes
the idempotent branch: it returns the refreshed stored snapshot and keeps
the stored entry (same OS process handle), for any spawn oracle. -/
theorem start_running_snapshot (poll : Nat → PollResult) (now : String)
    (clock : Nat) (spawn : Except String (Nat × Nat)) (m : ProcMap)
    (id : String) (cfg : StdioConfig) (e : ProcEntry)
    (he : alookup m id = some e) (hrun : poll e.procId = PollResult.running) :
    (mcp_start_server poll now clock spawn m id cfg).1 =
      Except.ok (runningSnap e clock) ∧
    alookup (mcp_start_server poll now clock spawn m id cfg).2 id =
      some { e with state := runningSnap e clock } := by
  have hg : mcp_get_status poll now clock m id =
      (Except.ok (runningSnap e clock),
        ainsert m id { e with state := runningSnap e clock }) := by
    simp [mcp_get_status, he, hrun, runningSnap]
  have hst : (runningSnap e clock).state = LifecycleState.running := rfl
  have key : mcp_start_server poll now clock spawn m id cfg =
      (Except.ok (runningSnap e clock),
        ainsert m id { e with state := runningSnap e clock }) := by
    simp [mcp_start_server, hg, hst]
  rw [key]
  exact ⟨rfl, alookup_ainsert_self _ _ _⟩

/-- Claim C1: for every server id whose record's OS process is still alive
(the second call's poll reports Running), a second `mcp_start_server` call
without an intervening stop returns the existing snapshot — the same
`started_at` and pid that the first call returned — and spawns no new OS
process: the stored process handle is unchanged and the second call's spawn
oracle is arbitrary (it is never consulted). -/
theorem start_idempotent_while_running
    (poll1 poll2 : Nat → PollResult) (now1 now2 : String) (clock1 clock2 : Nat)
    (spawn1 spawn2 : Except String (Nat × Nat)) (m0 : ProcMap) (id : String)
    (cfg1 cfg2 : StdioConfig) (p1 : MCPServerProcess)
    (h1 : (mcp_start_server poll1 now1 clock1 spawn1 m0 id cfg1).1 = Except.ok p1)
    (halive : ∀ e,
      alookup (mcp_start_server poll1 now1 clock1 spawn1 m0 id cfg1).2 id = some e →
      poll2 e.procId = PollResult.running) :
    okStartedPid (mcp_start_server poll2 now2 clock2 spawn2
        (mcp_start_server poll1 now1 clock1 spawn1 m0 id cfg1).2 id cfg2).1 =
      some (p1.started_at, p1.pid) ∧
    procIdAt (mcp_start_server poll2 now2 clock2 spawn2
        (mcp_start_server poll1 now1 clock1 spawn1 m0 id cfg1).2 id cfg2).2 id =
      procIdAt (mcp_start_server poll1 now1 clock1 spawn1 m0 id cfg1).2 id := by
  obtain ⟨e, he, hstate⟩ := start_ok_entry poll1 now1 clock1 spawn1 m0 id cfg1 p1 h1
  obtain ⟨h2a, h2b⟩ :=
    start_running_snapshot poll2 now2 clock2 spawn2 _ id cfg2 e he (halive e he)
  constructor
  · rw [h2a]
    simp [okStartedPid, runningSnap, ← hstate]
  · rw [procIdAt, procIdAt, he, h2b]
    rfl

/-- Witness for claim C1, at a concrete scenario: the first call spawned
pid 42 at "T1"; the second call (whose spawn oracle would fail if consulted)
returns the same `started_at` and pid and keeps the process handle. -/
theorem start_idempotent_while_running_witness :
    okStartedPid (mcp_start_server pollAliveW "T2" 9 (Except.error "down")
        startW.2 "s" cfgW).1 = some (some "T1", some 42) ∧
    procIdAt (mcp_start_server pollAliveW "T2" 9 (Except.error "down")
        startW.2 "s" cfgW).2 "s" = procIdAt startW.2 "s" := by
  have h := start_idempotent_while_running pollAliveW pollAliveW "T1" "T2" 3 9
    (Except.ok (1, 42)) (Except.error "down") [] "s" cfgW cfgW
    (mkProcess "s" 42 "T1") rfl (fun e _ => rfl)
  exact h

/-- Claim C4 (amended): on the spawn path (status did not report Running),
a successful `mcp_start_server` always installs a record with
`restart_count = 0`, regardless of any prior record — the prior count is
not preserved. -/
theorem start_restart_count_reset (poll : Nat → PollResult) (now : String)
    (clock : Nat) (handle pidVal : Nat) (m : ProcMap) (id : String)
    (cfg : StdioConfig)
    (hnr : ∀ st, (mcp_get_status poll now clock m id).1 = Except.ok st →
      st.state ≠ LifecycleState.running) :
    (mcp_start_server poll now clock (Except.ok (handle, pidVal)) m id cfg).1 =
      Except.ok (mkProcess id pidVal now) ∧
    (mkProcess id pidVal now).restart_count = 0 := by
  rcases hsr : mcp_get_status poll now clock m id with ⟨r, m2⟩
  cases r with
  | error err =>
      have key : (mcp_start_server poll now clock (Except.ok (handle, pidVal)) m id cfg).1 =
          Except.ok (mkProcess id pidVal now) := by
        simp [mcp_start_server, hsr]
      exact ⟨key, rfl⟩
  | ok st =>
      have hrun := hnr st (by rw [hsr])
      have key : (mcp_start_server poll now clock (Except.ok (handle, pidVal)) m id cfg).1 =
          Except.ok (mkProcess id pidVal now) := by
        simp [mcp_start_server, hsr, hrun]
      exact ⟨key, rfl⟩

/-- Counterexample to claim C4 as stated: a prior record for "s" exists with
`restart_count = 3`, the subsequent start succeeds (spawn branch, since the
old process polls as exited), yet the new Running record carries
`restart_count = 0`, not 3 — the prior count is not preserved. -/
theorem start_restart_count_counterexample :
    cexPriorEntry.state.restart_count = 3 ∧
    (mcp_start_server (fun _ => PollResult.exited (some 0)) "T1" 5
        (Except.ok (8, 99)) cexMap "s" cfgW).1 =
      Except.ok (mkProcess "s" 99 "T1") ∧
    (mkProcess "s" 99 "T1").restart_count = 0 ∧ (0 : Nat) ≠ 3 :=
  ⟨rfl, rfl, rfl, by decide⟩

/-- Witness for the amended claim C4 at a concrete input (prior record with
count 3, old process exited with code 7). -/
theorem start_restart_count_reset_witness :
    (mcp_start_server (fun _ => PollResult.exited (some 7)) "T9" 5
        (Except.ok (8, 99)) cexMap "s" cfgW).1 =
      Except.ok (mkProcess "s" 99 "T9") ∧
    (mkProcess "s" 99 "T9").restart_count = 0 := by
  refine start_restart_count_reset (fun _ => PollResult.exited (some 7)) "T9" 5
    8 99 cexMap "s" cfgW ?_
  intro st h
  injection h with h2
  rw [← h2]
  decide

/-- Claim C7: for a server id with a record, `mcp_get_status` classifies a
clean exit (code 0) as Stopped with `last_error = none` and `stopped_at`
recorded, a non-zero exit code `c` as Error with `last_error` the message
"Exited with code c" (so it contains the code) and `stopped_at` recorded,
and a still-alive process as Running with refreshed uptime; in each case the
stored record is updated to the returned snapshot. -/
theorem status_exit_classification (poll : Nat → PollResult) (now : String)
    (clock : Nat) (m : ProcMap) (id : String) (e : ProcEntry)
    (he : alookup m id = some e) :
    (poll e.procId = PollResult.exited (some 0) →
      (mcp_get_status poll now clock m id).1 = Except.ok (stoppedSnap e now) ∧
      alookup (mcp_get_status poll now clock m id).2 id =
        some { e with state := stoppedSnap e now }) ∧
    (∀ c : Int, c ≠ 0 → poll e.procId = PollResult.exited (some c) →
      (mcp_get_status poll now clock m id).1 = Except.ok (errorSnap e now c) ∧
      alookup (mcp_get_status poll now clock m id).2 id =
        some { e with state := errorSnap e now c }) ∧
    (poll e.procId = PollResult.running →
      (mcp_get_status poll now clock m id).1 = Except.ok (runningSnap e clock) ∧
      alookup (mcp_get_status poll now clock m id).2 id =
        some { e with state := runningSnap e clock }) := by
  refine ⟨?_, ?_, ?_⟩
  · intro hp
    have key : mcp_get_status poll now clock m id =
        (Except.ok (stoppedSnap e now),
          ainsert m id { e with state := stoppedSnap e now }) := by
      simp [mcp_get_status, he, hp, stoppedSnap]
    rw [key]
    exact ⟨rfl, alookup_ainsert_self _ _ _⟩
  · intro c hc hp
    have key : mcp_get_status poll now clock m id =
        (Except.ok (errorSnap e now c),
          ainsert m id { e with state := errorSnap e now c }) := by
      simp [mcp_get_status, he, hp, hc, errorSnap]
    rw [key]
    exact ⟨rfl, alookup_ainsert_self _ _ _⟩
  · intro hp
    have key : mcp_get_status poll now clock m id =
        (Except.ok (runningSnap e clock),
          ainsert m id { e with state := runningSnap e clock }) := by
      simp [mcp_get_status, he, hp, runningSnap]
    rw [key]
    exact ⟨rfl, alookup_ainsert_self _ _ _⟩

/-- Witness for claim C7 at a concrete input: the stored process for "s"
exits with code 1; status reports Error with the code in `last_error`. -/
theorem status_exit_classification_witness :
    (mcp_get_status (fun _ => PollResult.exited (some 1)) "T3" 9 cexMap "s").1 =
      Except.ok (errorSnap cexPriorEntry "T3" 1) ∧
    alookup (mcp_get_status (fun _ => PollResult.exited (some 1)) "T3" 9
        cexMap "s").2 "s" =
      some { cexPriorEntry with state := errorSnap cexPriorEntry "T3" 1 } := by
  have h := status_exit_classification (fun _ => PollResult.exited (some 1))
    "T3" 9 cexMap "s" cexPriorEntry rfl
  exact h.2.1 1 (by decide) rfl

/-- Claim C8 (amended): `mcp_restart_server` with no config fails with the
missing-configuration error, but only after performing the stop: the
resulting registry is exactly the post-stop registry, and in particular no
record remains for the id — an existing Running record is removed (its
process stopped), not left untouched. -/
theorem restart_missing_config (killRes : Nat → Except String Unit)
    (poll : Nat → PollResult) (now : String) (clock : Nat)
    (spawn : Except String (Nat × Nat)) (m : ProcMap) (id : String) :
    (mcp_restart_server killRes poll now clock spawn m id none).1 =
      Except.error "Missing configuration for restart" ∧
    (mcp_restart_server killRes poll now clock spawn m id none).2 =
      (mcp_stop_server killRes m id (some false)).2 ∧
    alookup (mcp_restart_server killRes poll now clock spawn m id none).2 id =
      none := by
  refine ⟨rfl, rfl, ?_⟩
  show alookup (mcp_stop_server killRes m id (some false)).2 id = none
  cases he : alookup m id with
  | none => simp [mcp_stop_server, he]
  | some e => simp [mcp_stop_server, he, alookup_aerase_self]

/-- Counterexample to claim C8 as stated: with a Running record for "s",
restart without a config does return the missing-configuration error, but
the record is gone afterwards — the existing process was stopped and its
record removed, not left untouched. -/
theorem restart_missing_config_counterexample :
    alookup [("s", runEntryW)] "s" = some runEntryW ∧
    runEntryW.state.state = LifecycleState.running ∧
    (mcp_restart_server (fun _ => Except.ok ()) pollAliveW "T4" 12
        (Except.error "n") [("s", runEntryW)] "s" none).1 =
      Except.error "Missing configuration for restart" ∧
    alookup (mcp_restart_server (fun _ => Except.ok ()) pollAliveW "T4" 12
        (Except.error "n") [("s", runEntryW)] "s" none).2 "s" = none :=
  ⟨rfl, rfl, rfl, by decide⟩

/-! ## Lemmas about the registry cache -/

theorem findById_cons (a : RegistryServerEntry) (l : List RegistryServerEntry)
    (i : String) :
    findById (a :: l) i = if a.id = i then some a else findById l i := by
  by_cases h : a.id = i <;> simp [findById, List.find?_cons, h]

/-- `dedupGo` produces pairwise-distinct ids, none of them in `seen`. -/
theorem dedupGo_id_nodup (l : List RegistryServerEntry) : ∀ seen : List String,
    ((dedupGo seen l).map (fun e => e.id)).Nodup ∧
      ∀ e, e ∈ dedupGo seen l → e.id ∉ seen := by
  induction l with
  | nil => intro seen; simp [dedupGo]
  | cons a rest ih =>
      intro seen
      by_cases h : a.id ∈ seen
      · simpa [dedupGo, h] using ih seen
      · obtain ⟨ihn, ihs⟩ := ih (a.id :: seen)
        simp only [dedupGo, if_neg h, List.map_cons, List.nodup_cons]
        refine ⟨⟨?_, ihn⟩, ?_⟩
        · intro hmem
          obtain ⟨e, hmemE, heq⟩ := List.mem_map.mp hmem
          exact ihs e hmemE (heq ▸ List.mem_cons_self _ _)
        · intro e hmem
          rcases List.mem_cons.mp hmem with he | he
          · rw [he]; exact h
          · intro habs
            exact ihs e he (List.mem_cons_of_mem _ habs)

/-- Deduplication keeps the first occurrence: `findById` is unchanged for
keys not yet seen. -/
theorem findById_dedupGo (l : List RegistryServerEntry) : ∀ (seen : List String)
    (i : String), i ∉ seen → findById (dedupGo seen l) i = findById l i := by
  induction l with
  | nil => intro seen i _; rfl
  | cons a rest ih =>
      intro seen i hi
      by_cases ha : a.id ∈ seen
      · have hne : ¬ a.id = i := fun he => hi (he ▸ ha)
        rw [show dedupGo seen (a :: rest) = dedupGo seen rest from if_pos ha,
          findById_cons, if_neg hne]
        exact ih seen i hi
      · rw [show dedupGo seen (a :: rest) = a :: dedupGo (a.id :: seen) rest from
          if_neg ha, findById_cons, findById_cons]
        by_cases he : a.id = i
        · simp [he]
        · simp only [if_neg he]
          refine ih (a.id :: seen) i ?_
          intro habs
          rcases List.mem_cons.mp habs with h1 | h1
          · exact he h1.symm
          · exact hi h1

/-- Finding an element by id in a list where it occurs and ids are
pairwise distinct returns that element. -/
theorem findById_of_mem_nodup (e : RegistryServerEntry) :
    ∀ l : List RegistryServerEntry, e ∈ l →
    (l.map (fun x => x.id)).Nodup → findById l e.id = some e := by
  intro l
  induction l with
  | nil => intro h; simp at h
  | cons a rest ih =>
      intro hmem hnd
      rcases List.mem_cons.mp hmem with he | he
      · rw [he, findById_cons, if_pos rfl]
      · have hane : ¬ a.id = e.id := by
          intro habs
          have : e.id ∈ rest.map (fun x => x.id) :=
            List.mem_map.mpr ⟨e, he, rfl⟩
          rw [List.map_cons, List.nodup_cons] at hnd
          exact hnd.1 (habs ▸ this)
        rw [findById_cons, if_neg hane]
        rw [List.map_cons, List.nodup_cons] at hnd
        exact ih he hnd.2

/-- Extending a list to the right does not change a successful find. -/
theorem findById_append_left (l1 l2 : List RegistryServerEntry) (i : String)
    (x : RegistryServerEntry) (h : findById l1 i = some x) :
    findById (l1 ++ l2) i = some x := by
  induction l1 with
  | nil => simp [findById] at h
  | cons a rest ih =>
      rw [findById_cons] at h
      rw [List.cons_append, findById_cons]
      by_cases ha : a.id = i
      · rwa [if_pos ha] at h ⊢
      · rw [if_neg ha] at h ⊢
        exact ih h

/-- The ids of the curated entries are exactly the curated package names. -/
theorem known_servers_ids : known_servers.map (fun e => e.id) = knownPkgs := by
  simp only [known_servers, List.map_map]
  exact List.map_id knownPkgs

/-- Claim C5: after every cache rebuild via `update_cache`, the cache holds
at most one entry per id, and every curated `known_servers` entry is the one
kept for its id — a live npm or github result sharing that id can never
shadow it (curated entries are merged first; first occurrence wins). -/
theorem update_cache_dedup (npm github : List RegistryServerEntry) :
    ((update_cache npm github).map (fun e => e.id)).Nodup ∧
    ∀ e, e ∈ known_servers → findById (update_cache npm github) e.id = some e := by
  constructor
  · exact (dedupGo_id_nodup (known_servers ++ npm ++ github) []).1
  · intro e he
    have h1 : findById (update_cache npm github) e.id =
        findById (known_servers ++ npm ++ github) e.id :=
      findById_dedupGo (known_servers ++ npm ++ github) [] e.id (by simp)
    have hnd : (known_servers.map (fun x => x.id)).Nodup := by
      rw [known_servers_ids]; decide
    have h2 : findById known_servers e.id = some e :=
      findById_of_mem_nodup e known_servers he hnd
    rw [h1, show known_servers ++ npm ++ github =
      (known_servers ++ npm) ++ github from rfl]
    exact findById_append_left _ github e.id e
      (findById_append_left _ npm e.id e h2)

/-- Witness for claim C5 at a concrete input: a live result sharing the
curated github entry's id does not shadow it in the rebuilt cache. -/
theorem update_cache_dedup_witness :
    findById (update_cache [imposterW] []) "@modelcontextprotocol/server-github" =
      some kGithubW := by
  have h := (update_cache_dedup [imposterW] []).2 kGithubW (by decide)
  exact h

/-- A `registry_search` page is a window of the filtered/sorted list. -/
theorem registry_search_page (cache : List RegistryServerEntry)
    (f : RegistrySearchFilters) (l off : Nat) (hl : f.limit = some l) :
    (registry_search cache (setOffset f off)).1 =
      ((filterSort cache f).drop off).take l := by
  have hfs : filterSort cache (setOffset f off) = filterSort cache f := rfl
  have hlim : (setOffset f off).limit = some l := hl
  have hoff : (setOffset f off).offset = some off := rfl
  simp only [registry_search]
  rw [hfs, hlim, hoff]
  simp only [Option.getD_some]
  by_cases h : off < (filterSort cache f).length
  · rw [if_pos h]
  · rw [if_neg h, List.drop_eq_nil_of_le (Nat.le_of_not_lt h), List.take_nil]

/-- `has_more` is the strict comparison of `offset + limit` against the
pre-slice match count. -/
theorem registry_search_has_more (cache : List RegistryServerEntry)
    (f : RegistrySearchFilters) (l off : Nat) (hl : f.limit = some l) :
    (registry_search cache (setOffset f off)).2.2 =
      decide (off + l < (filterSort cache f).length) := by
  have hfs : filterSort cache (setOffset f off) = filterSort cache f := rfl
  have hlim : (setOffset f off).limit = some l := hl
  have hoff : (setOffset f off).offset = some off := rfl
  simp only [registry_search]
  rw [hfs, hlim, hoff]
  simp only [Option.getD_some]

/-- `searchPages` pages are exactly the windows of the filtered/sorted
list. -/
theorem searchPages_eq_pagesAbs (cache : List RegistryServerEntry)
    (f : RegistrySearchFilters) (l : Nat) (hl : f.limit = some l) :
    ∀ n k, searchPages cache f l k n = pagesAbs (filterSort cache f) l k n := by
  intro n
  induction n with
  | zero => intro k; rfl
  | succ n ih =>
      intro k
      simp only [searchPages, pagesAbs, registry_search_page cache f l (k * l) hl, ih]

/-- Dropping the first window reindexes the remaining windows. -/
theorem pagesAbs_shift (l : Nat) : ∀ (n : Nat) (xs : List RegistryServerEntry)
    (k : Nat), pagesAbs xs l (k + 1) n = pagesAbs (xs.drop l) l k n := by
  intro n
  induction n with
  | zero => intro xs k; rfl
  | succ n ih =>
      intro xs k
      simp only [pagesAbs]
      rw [ih]
      congr 1
      rw [List.drop_drop]
      congr 1
      ring_nf

/-- Enough consecutive windows of positive width cover the whole list. -/
theorem pagesAbs_cover (l : Nat) (_hl : 0 < l) : ∀ (n : Nat)
    (xs : List RegistryServerEntry), xs.length ≤ n * l →
    pagesAbs xs l 0 n = xs := by
  intro n
  induction n with
  | zero =>
      intro xs hx
      simp only [Nat.zero_mul, Nat.le_zero, List.length_eq_zero] at hx
      rw [hx]; rfl
  | succ n ih =>
      intro xs hx
      simp only [pagesAbs]
      rw [pagesAbs_shift]
      rw [ih (xs.drop l) (by rw [List.length_drop]; rw [Nat.succ_mul] at hx; omega)]
      simp

/-- Claim C3: over a fixed cache and filter combination, the pages returned
by `registry_search` at offsets `0, l, 2l, ...` (with `limit = l > 0`)
concatenate to exactly the full filtered and sorted result list — no
duplicates, no gaps — and every call reports
`has_more = (offset + limit < total)` with `total` the pre-slice match
count. -/
theorem registry_search_pagination (cache : List RegistryServerEntry)
    (f : RegistrySearchFilters) (l N : Nat) (hl : f.limit = some l)
    (hpos : 0 < l) (hN : (filterSort cache f).length ≤ N * l) :
    searchPages cache f l 0 N = filterSort cache f ∧
    ∀ off, (registry_search cache (setOffset f off)).2.2 =
      decide (off + l < (filterSort cache f).length) := by
  constructor
  · rw [searchPages_eq_pagesAbs cache f l hl]
    exact pagesAbs_cover l hpos N (filterSort cache f) hN
  · intro off
    exact registry_search_has_more cache f l off hl

/-- Witness for claim C3 at a concrete input: two pages of size one over a
two-entry cache concatenate to the full sorted result list. -/
theorem registry_search_pagination_witness :
    searchPages [entryBW, entryAW] fPagW 1 0 2 = filterSort [entryBW, entryAW] fPagW :=
  (registry_search_pagination [entryBW, entryAW] fPagW 1 2 rfl (by decide)
    (by decide)).1

/-! ## Lemmas about the installer -/

/-- Patching a progress record that does not exist is a no-op. -/
theorem update_progress_absent (m : List (String × InstallationProgress))
    (k : String) (f : InstallationProgress → InstallationProgress)
    (h : alookup m k = none) : update_progress m k f = m := by
  induction m with
  | nil => rfl
  | cons kv rest ih =>
      have hk : ¬ kv.1 = k := by
        intro habs
        rw [alookup, if_pos habs] at h
        exact Option.some_ne_none _ h
      rw [alookup, if_neg hk] at h
      simp only [update_progress, List.map_cons, if_neg hk]
      exact congrArg (kv :: ·) (ih h)

/-- After `remove_dir_all` the directory is gone. -/
theorem not_mem_removePath_self (fs : List String) (p : String) :
    p ∉ removePath fs p := by
  simp [removePath, List.mem_filter]

/-- Claim C10: cancelling an install id with no progress record succeeds and
leaves the whole installer state (progress, metadata and process-handle
maps) unchanged, while `get_install_progress` fails with the not-found error
for the same id — cancel never reports not-found. -/
theorem cancel_unknown_id (now : String) (st : InstallerState) (iid : String)
    (h : alookup st.installs iid = none) :
    (cancel_install now st iid).1 = Except.ok () ∧
    (cancel_install now st iid).2 = st ∧
    get_install_progress st iid = Except.error "Installation not found" := by
  refine ⟨rfl, ?_, by simp [get_install_progress, h]⟩
  show ({ st with installs := update_progress st.installs iid _ } : InstallerState) = st
  rw [update_progress_absent st.installs iid _ h]

/-- Witness for claim C10 at a concrete input. -/
theorem cancel_unknown_id_witness :
    (cancel_install "N" stEmptyW "zz").1 = Except.ok () ∧
    (cancel_install "N" stEmptyW "zz").2 = stEmptyW ∧
    get_install_progress stEmptyW "zz" = Except.error "Installation not found" :=
  cancel_unknown_id "N" stEmptyW "zz" rfl

/-- Claim C9: every install that reaches the Completed terminal state
(`do_install` returns ok), for any source type, stores an
`InstallMetadata` record under its install id whose `server_id` equals its
`install_id`. -/
theorem do_install_metadata_ids (env : InstallEnv) (st : InstallerState)
    (iid : String) (config : InstallConfig)
    (hok : (do_install env st iid config).1 = Except.ok ()) :
    (alookup (do_install env st iid config).2.metadata iid).map
      (fun md => (md.server_id, md.install_id)) = some (iid, iid) := by
  cases config
  next pkg ver glob reg =>
    cases hn : env.npmOk with
    | false => simp [do_install, hn] at hok
    | true =>
        simp only [do_install, hn, if_pos rfl]
        simp [alookup_ainsert_self]
  next repo br tg cm sp =>
    cases hn : env.gitOk with
    | false => simp [do_install, hn] at hok
    | true =>
        simp only [do_install, hn, if_pos rfl]
        simp [alookup_ainsert_self]
  next path val =>
    cases hn : env.pathIsDir path with
    | false => simp [do_install, hn] at hok
    | true =>
        simp only [do_install, hn, if_pos rfl]
        simp [alookup_ainsert_self]

/-- Witness for claim C9 at a concrete input (a local install). -/
theorem do_install_metadata_ids_witness :
    (alookup (do_install envLocalW stEmptyW "i1"
        (InstallConfig.local "/srv" none)).2.metadata "i1").map
      (fun md => (md.server_id, md.install_id)) = some ("i1", "i1") :=
  do_install_metadata_ids envLocalW stEmptyW "i1"
    (InstallConfig.local "/srv" none) rfl

/-- Claim C2: for an install id with a metadata record (whose source type is
one of the three `do_install` ever writes), `uninstall_server` succeeds and
removes the metadata record, the progress-tracking entry and the
process-handle entry; for npm and github the install directory no longer
exists afterwards, for local the filesystem is untouched.  For an install id
with no metadata record, it fails with the metadata-not-found error. -/
theorem uninstall_server_spec (killRes : Nat → Except String Unit)
    (st : InstallerState) (procs : ProcMap) (iid : String)
    (sid : Option String) (stopp : Option Bool) :
    (∀ md, alookup st.metadata iid = some md →
      (md.source_type = "npm" ∨ md.source_type = "github" ∨
        md.source_type = "local") →
      (uninstall_server killRes st procs iid sid stopp).1 = Except.ok () ∧
      alookup (uninstall_server killRes st procs iid sid stopp).2.1.metadata iid = none ∧
      alookup (uninstall_server killRes st procs iid sid stopp).2.1.installs iid = none ∧
      alookup (uninstall_server killRes st procs iid sid stopp).2.1.processes iid = none ∧
      ((md.source_type = "npm" ∨ md.source_type = "github") →
        md.install_path ∉ (uninstall_server killRes st procs iid sid stopp).2.1.fs) ∧
      (md.source_type = "local" →
        (uninstall_server killRes st procs iid sid stopp).2.1.fs = st.fs)) ∧
    (alookup st.metadata iid = none →
      (uninstall_server killRes st procs iid sid stopp).1 =
        Except.error ("Installation metadata not found for install_id: " ++ iid)) := by
  constructor
  · intro md hmd hsrc
    rcases hsrc with hn | hg | hl
    · simp only [uninstall_server, hmd, hn]
      simp [alookup_aerase_self, not_mem_removePath_self]
    · simp only [uninstall_server, hmd, hg]
      simp [alookup_aerase_self, not_mem_removePath_self]
    · simp only [uninstall_server, hmd, hl]
      simp [alookup_aerase_self]
  · intro h
    simp [uninstall_server, h]

/-- Witness for claim C2 at a concrete input: uninstalling the npm install
"i2" succeeds, the metadata record is gone and so is the directory. -/
theorem uninstall_server_spec_witness :
    (uninstall_server killOkW stNpmW [] "i2" none none).1 = Except.ok () ∧
    alookup (uninstall_server killOkW stNpmW [] "i2" none none).2.1.metadata "i2" = none ∧
    mdNpmW.install_path ∉ (uninstall_server killOkW stNpmW [] "i2" none none).2.1.fs := by
  have h := (uninstall_server_spec killOkW stNpmW [] "i2" none none).1 mdNpmW rfl
    (Or.inl rfl)
  exact ⟨h.1, h.2.1, h.2.2.2.2.1 (Or.inl rfl)⟩

/-- Claim C6 (amended): for a syntactically invalid npm package name or
GitHub repository, `validate_install` returns `valid = false` with a
non-empty error list and leaves the installer state untouched; however, it
still probes the package manager / VCS availability (`npm --version` /
`git --version`) even for the invalid identifier — its external-command
trace is exactly that availability probe. -/
theorem validate_invalid_inputs (env : ToolEnv) (st : InstallerState)
    (pkg : String) (v : Option String) (g : Option Bool) (r : Option String)
    (repo : String) (b t c sp : Option String) :
    (npmNameOk pkg = false →
      (validate_install env (InstallConfig.npm pkg v g r) st).1.valid = false ∧
      (validate_install env (InstallConfig.npm pkg v g r) st).1.errors ≠ [] ∧
      (validate_install env (InstallConfig.npm pkg v g r) st).2.1 = ["npm --version"] ∧
      (validate_install env (InstallConfig.npm pkg v g r) st).2.2 = st) ∧
    (githubRepoOk repo = false →
      (validate_install env (InstallConfig.github repo b t c sp) st).1.valid = false ∧
      (validate_install env (InstallConfig.github repo b t c sp) st).1.errors ≠ [] ∧
      (validate_install env (InstallConfig.github repo b t c sp) st).2.1 = ["git --version"] ∧
      (validate_install env (InstallConfig.github repo b t c sp) st).2.2 = st) := by
  constructor
  · intro h
    cases hA : env.npmAvailable <;> simp [validate_install, h, hA]
  · intro h
    cases hA : env.gitAvailable <;> simp [validate_install, h, hA]

/-- Counterexample to claim C6 as stated: with a syntactically invalid npm
package name, `validate_install` still shells out — its external-command
trace is the (non-empty) `npm --version` availability probe, so "does not
contact any external tool" fails. -/
theorem validate_probes_counterexample :
    npmNameOk "Invalid Name!" = false ∧
    (validate_install envToolsW (InstallConfig.npm "Invalid Name!" none none none)
        stEmptyW).2.1 = ["npm --version"] ∧
    (["npm --version"] : List String) ≠ [] :=
  ⟨by decide, rfl, by decide⟩

/-- Witness for the amended claim C6 at concrete invalid inputs. -/
theorem validate_invalid_inputs_witness :
    (validate_install envToolsW (InstallConfig.npm "Invalid Name!" none none none)
        stEmptyW).1.valid = false ∧
    (validate_install envToolsW
        (InstallConfig.github "invalid-repo-format" none none none none)
        stEmptyW).1.valid = false := by
  have h := validate_invalid_inputs envToolsW stEmptyW "Invalid Name!" none none
    none "invalid-repo-format" none none none none
  exact ⟨(h.1 (by decide)).1, (h.2 (by decide)).1⟩
